import Mathlib

/-!
Verification of the DIMO-Network/server-garage repository against its
natural-language specification.  The Go source is shallowly embedded:
pure functions become Lean functions, closures registered on the task
group become elements of an inductive `TaskSpec` whose bodies are
interpreted by `TaskSpec.exec` over an oracle environment of external
call outcomes, and fallible operations return `Option`.
-/

/-- A plain Go error value, modelled by the string its `Error()` method
returns (`errors.New` / `fmt.Errorf` both produce such a value; wrapping
with `%w` renders as `prefixText ++ ": " ++ inner`). -/
structure GoErr where
  message : String
deriving DecidableEq

namespace richerrors

/-- Embeds the struct `richerrors.Error` (src/unnamed/part_001): a code,
an external message and a wrapped error.  A Go `nil` error interface is
`none`. -/
structure Error where
  Code : Int
  ExternalMsg : String
  Err : Option GoErr
deriving DecidableEq

/-- Embeds the method `Error.Error()`:
if `ExternalMsg` is non-empty it returns `ExternalMsg ++ ": " ++ Err.Error()`,
dereferencing `Err` without a nil check — a `nil` `Err` there is a runtime
panic, modelled as `none`; otherwise it returns `Err.Error()` when `Err` is
non-nil, and `""` when both are unset. -/
def Error.errorMessage (e : Error) : Option String :=
  if e.ExternalMsg ≠ "" then
    match e.Err with
    | some err => some (e.ExternalMsg ++ ": " ++ err.message)
    | none => none
  else
    match e.Err with
    | some err => some err.message
    | none => some ""

/-- Embeds `Error.MarshalText`: returns the bytes of `e.Error()` (and a nil
error).  The result is `none` exactly when the underlying `Error()` call
panics. -/
def Error.marshalText (e : Error) : Option String :=
  e.errorMessage

/-- Embeds `Error.UnmarshalText`: sets `ExternalMsg` to the text and `Err`
to `errors.New` of the same text; `Code` is left untouched. -/
def Error.unmarshalText (e : Error) (text : String) : Error :=
  { e with ExternalMsg := text, Err := some ⟨text⟩ }

end richerrors

namespace runner

/-- A context handle; only its identity matters to the embedding (which
context value a closure captured and passes on). -/
abbrev Ctx := Nat

/-- The `http.Server` value built inside `RunHandler`
(src/pkg/richerrors/richerros_test.go, runner part): an address and a
handler. -/
structure HTTPServer where
  addr : String
  handler : Nat
deriving DecidableEq

/-- The closures that the three adapters register on the error group,
one constructor per closure in the source.  Run closures capture only the
server (and address); watch closures additionally capture the shared
context, on whose `Done` channel they block. -/
inductive TaskSpec where
  | fiberRun (app : Nat) (addr : String)
  | fiberWatch (app : Nat) (ctx : Ctx)
  | grpcRun (srv : Nat) (addr : String)
  | grpcWatch (srv : Nat) (ctx : Ctx)
  | handlerRun (srv : HTTPServer)
  | handlerWatch (srv : HTTPServer) (ctx : Ctx)
deriving DecidableEq

/-- The error group, modelled as the list of closures registered on it,
in registration order. -/
structure Group where
  tasks : List TaskSpec
deriving DecidableEq

/-- `group.Go(f)` registers one closure. -/
def Group.go (g : Group) (t : TaskSpec) : Group :=
  ⟨g.tasks ++ [t]⟩

/-- Embeds `RunFiber`: registers the run closure (calls
`fiberApp.Listen(addr)`) and the watch closure (waits on `ctx.Done()`,
then calls `fiberApp.Shutdown()`). -/
def RunFiber (ctx : Ctx) (fiberApp : Nat) (addr : String) (g : Group) : Group :=
  (g.go (.fiberRun fiberApp addr)).go (.fiberWatch fiberApp ctx)

/-- Embeds `RunGRPC`: registers the run closure (calls
`net.Listen("tcp", addr)` then `grpcServer.Serve(lis)`) and the watch
closure (waits on `ctx.Done()`, then calls `grpcServer.GracefulStop()`). -/
def RunGRPC (ctx : Ctx) (grpcServer : Nat) (addr : String) (g : Group) : Group :=
  (g.go (.grpcRun grpcServer addr)).go (.grpcWatch grpcServer ctx)

/-- Embeds `RunHandler`: builds `srv := &http.Server{Addr: addr, Handler:
handler}` and registers the run closure (calls `srv.ListenAndServe()`)
and the watch closure (waits on `ctx.Done()`, then calls
`srv.Shutdown(ctx)` with the very context the adapter received). -/
def RunHandler (ctx : Ctx) (handler : Nat) (addr : String) (g : Group) : Group :=
  (g.go (.handlerRun ⟨addr, handler⟩)).go (.handlerWatch ⟨addr, handler⟩ ctx)

/-- Oracle environment: the outcome of each external blocking call a task
body can make, plus whether the shared context is already cancelled at
the moment the task starts. `none` is a nil Go error. -/
structure Env where
  ctxDone : Bool
  fiberListen : Nat → String → Option GoErr
  fiberShutdown : Nat → Option GoErr
  netListen : String → Option GoErr
  grpcServe : Nat → Option GoErr
  httpListenAndServe : HTTPServer → Option GoErr
  httpShutdown : HTTPServer → Option GoErr

/-- External calls a task body performs, recorded in order. -/
inductive Call where
  | fiberListen (app : Nat) (addr : String)
  | fiberShutdown (app : Nat)
  | netListen (addr : String)
  | grpcServe (srv : Nat)
  | grpcGracefulStop (srv : Nat)
  | httpListenAndServe (srv : HTTPServer)
  | httpShutdown (srv : HTTPServer) (ctx : Ctx)
deriving DecidableEq

/-- Runs one registered closure to completion, returning the calls it
makes and the error it returns to the group.  Watch closures begin with
`<-ctx.Done()`; their behaviour below is what happens once that receive
has fired.  Error wrapping follows the `fmt.Errorf(".. %w", err)` texts
of the source. -/
def TaskSpec.exec (t : TaskSpec) (env : Env) : List Call × Option GoErr :=
  match t with
  | .fiberRun app addr =>
      match env.fiberListen app addr with
      | some e => ([.fiberListen app addr],
          some ⟨"failed to start server: " ++ e.message⟩)
      | none => ([.fiberListen app addr], none)
  | .fiberWatch app _ctx =>
      match env.fiberShutdown app with
      | some e => ([.fiberShutdown app],
          some ⟨"failed to shutdown server: " ++ e.message⟩)
      | none => ([.fiberShutdown app], none)
  | .grpcRun srv addr =>
      match env.netListen addr with
      | some e => ([.netListen addr],
          some ⟨"failed to listen on gRPC port " ++ addr ++ ": " ++ e.message⟩)
      | none =>
          match env.grpcServe srv with
          | some e => ([.netListen addr, .grpcServe srv],
              some ⟨"gRPC server failed to serve: " ++ e.message⟩)
          | none => ([.netListen addr, .grpcServe srv], none)
  | .grpcWatch srv _ctx => ([.grpcGracefulStop srv], none)
  | .handlerRun srv =>
      match env.httpListenAndServe srv with
      | some e => ([.httpListenAndServe srv],
          some ⟨"failed to run server: " ++ e.message⟩)
      | none => ([.httpListenAndServe srv], none)
  | .handlerWatch srv ctx =>
      match env.httpShutdown srv with
      | some e => ([.httpShutdown srv ctx],
          some ⟨"failed to shutdown server: " ++ e.message⟩)
      | none => ([.httpShutdown srv ctx], none)

/-- The sentinel `http.ErrServerClosed`.  Per the Go standard library
contract, `http.Server.ListenAndServe` always returns a non-nil error,
and after `Shutdown` or `Close` the returned error is exactly this
value. -/
def errServerClosed : GoErr := ⟨"http: Server closed"⟩

/-- Modelled from the Go standard library contract of
`http.Server.Shutdown(ctx)`: shutdown completes when in-flight work has
drained or when `ctx` expires, whichever comes first (`none` = never). -/
def shutdownCompletion : Option Nat → Option Nat → Option Nat
  | none, none => none
  | some c, none => some c
  | none, some d => some d
  | some c, some d => some (min c d)

/-- One task observed by the group: when it finished (position in the
completion order) and the error it returned.  Lists of `TaskRun` are kept
in completion order. -/
structure TaskRun where
  doneAt : Nat
  result : Option GoErr
deriving DecidableEq

/-- Modelled from the `golang.org/x/sync/errgroup` contract of
`Group.Wait`: the first non-nil error returned by any registered
function, in completion order (`nil` when all succeed). -/
def waitResult (runs : List TaskRun) : Option GoErr :=
  runs.findSome? fun r => r.result

/-- Modelled from the `errgroup` contract: `Wait` returns only after all
registered functions have returned. -/
def waitReturnsAt (runs : List TaskRun) : Nat :=
  (runs.map TaskRun.doneAt).foldr max 0

/-- Modelled from the `errgroup.WithContext` contract: the derived
context is cancelled the first time any registered function returns a
non-nil error. -/
def groupCtxCancelled (runs : List TaskRun) : Bool :=
  runs.any fun r => r.result.isSome

/-- Why the context derived by `signal.NotifyContext` became done. -/
inductive DoneCause where
  | signal
  | parentCancel
deriving DecidableEq

/-- Observable events of the goroutine inside `NewSignalGroup`. The
`logInfo` event carries the context whose logger is used
(`zerolog.Ctx(backgroundContext)`). -/
inductive BridgeEvent where
  | ctxDone (cause : DoneCause)
  | logInfo (loggerCtx : Ctx) (msg : String)
  | cancel
deriving DecidableEq

/-- The message logged by the `NewSignalGroup` goroutine. -/
def shutdownLogMsg : String := "Received interrupt signal, shutting down..."

/-- Whether a bridge event is a log emission. -/
def isLogEvent : BridgeEvent → Bool
  | .logInfo _ _ => true
  | _ => false

/-- Embeds the goroutine spawned by `NewSignalGroup`: it blocks on
`<-ctx.Done()` (which fires on a signal or on parent cancellation,
whichever first), then logs via the logger carried in
`backgroundContext`, then calls `cancel()` to release the signal
registration. -/
def signalGroupMonitor (backgroundContext : Ctx) (cause : DoneCause) :
    List BridgeEvent :=
  [.ctxDone cause, .logInfo backgroundContext shutdownLogMsg, .cancel]

/-- Embeds `NewSignalGroup`: returns the group-derived context and a
fresh, empty error group. -/
def NewSignalGroup (backgroundContext : Ctx) : Ctx × Group :=
  (backgroundContext + 1, ⟨[]⟩)

/-- Baseline oracle: every external call succeeds and the shared context
is not yet cancelled. -/
def envBase : Env where
  ctxDone := false
  fiberListen := fun _ _ => none
  fiberShutdown := fun _ => none
  netListen := fun _ => none
  grpcServe := fun _ => none
  httpListenAndServe := fun _ => none
  httpShutdown := fun _ => none

/-- The signal-first scenario: the shared context is already cancelled
before any task starts. -/
def envCancelled : Env :=
  { envBase with ctxDone := true }

end runner

namespace jwtmiddleware

/-- An Ethereum address, by its hex rendering. -/
abbrev Address := String

/-- The decoded ERC-721 DID of a token claim's asset (the fields
`validateTokenIDAndAddress` inspects). -/
structure AssetDID where
  TokenID : Int
  ContractAddress : Address
deriving DecidableEq

/-- The already-parsed token claims (the fields the privilege checks
read). -/
structure TokenClaims where
  Asset : String
  Permissions : List String
deriving DecidableEq

/-- A `fiber.NewError(status, message)` value. -/
structure FiberError where
  status : Nat
  message : String
deriving DecidableEq

/-- Outcome of a middleware handler: pass to the next handler
(`ctx.Next()`), or return an error. -/
inductive FiberResult where
  | next
  | err (status : Nat) (message : String)
deriving DecidableEq

/-- Embeds `validateTokenIDAndAddress` (src/pkg/fiber/fiber.go, the
jwtmiddleware part): decode the asset DID (the external
`cloudevent.DecodeERC721DID` is an oracle parameter), check the token id
when one was supplied, then check the contract address. -/
def validateTokenIDAndAddress (decodeERC721DID : String → Option AssetDID)
    (contract : Address) (tokenID : Option Int) (claims : TokenClaims) :
    Option FiberError :=
  match decodeERC721DID claims.Asset with
  | none => some ⟨401, "Unauthorized! invalid asset"⟩
  | some assetDID =>
      match tokenID with
      | some tid =>
          if assetDID.TokenID ≠ tid then
            some ⟨401, "Unauthorized! mismatch token Id provided"⟩
          else if assetDID.ContractAddress ≠ contract then
            some ⟨401, "Provided token is for the wrong contract: " ++
              assetDID.ContractAddress⟩
          else none
      | none =>
          if assetDID.ContractAddress ≠ contract then
            some ⟨401, "Provided token is for the wrong contract: " ++
              assetDID.ContractAddress⟩
          else none

/-- The permission loop of `checkAllPrivileges`: reject at the first
required permission the token lacks, otherwise `ctx.Next()`. -/
def checkAllLoop (permissions granted : List String) : FiberResult :=
  match permissions with
  | [] => .next
  | v :: rest =>
      if granted.contains v then checkAllLoop rest granted
      else .err 401 "Unauthorized! Token does not contain required privileges"

/-- The permission loop of `checkOneOfPrivileges`: `ctx.Next()` at the
first required permission the token holds, otherwise reject. -/
def checkOneOfLoop (permissions granted : List String) : FiberResult :=
  match permissions with
  | [] => .err 401
      "Unauthorized! Token does not contain any of the required privileges"
  | v :: rest =>
      if granted.contains v then .next
      else checkOneOfLoop rest granted

/-- Embeds `checkAllPrivileges`: fetch the claims from the request locals
(`none` models a failed `GetTokenClaim` cast), validate asset, token id
and contract, then require every listed permission. -/
def checkAllPrivileges (decodeERC721DID : String → Option AssetDID)
    (contract : Address) (tokenID : Option Int)
    (locals : Option TokenClaims) (permissions : List String) : FiberResult :=
  match locals with
  | none => .err 401
      "Unauthorized! Internal server error while getting token claim"
  | some claims =>
      match validateTokenIDAndAddress decodeERC721DID contract tokenID claims with
      | some e => .err e.status e.message
      | none => checkAllLoop permissions claims.Permissions

/-- Embeds `checkOneOfPrivileges`: same claim fetch and validation, then
require at least one listed permission. -/
def checkOneOfPrivileges (decodeERC721DID : String → Option AssetDID)
    (contract : Address) (tokenID : Option Int)
    (locals : Option TokenClaims) (permissions : List String) : FiberResult :=
  match locals with
  | none => .err 401
      "Unauthorized! Internal server error while getting token claim"
  | some claims =>
      match validateTokenIDAndAddress decodeERC721DID contract tokenID claims with
      | some e => .err e.status e.message
      | none => checkOneOfLoop permissions claims.Permissions

end jwtmiddleware

/-- C8: `richerrors.Error.Error()` is total exactly when a non-empty
`ExternalMsg` comes with a non-nil wrapped `Err`: the call faults (returns
`none` in the model, a nil dereference in Go) precisely on values with
`ExternalMsg ≠ ""` and `Err = nil`, and on a value with both fields unset it
returns the empty string. -/
theorem richerrors.error_method_total_iff_err_present :
    (∀ e : richerrors.Error,
        e.errorMessage = none ↔ (e.ExternalMsg ≠ "" ∧ e.Err = none)) ∧
    (∀ c : Int, (richerrors.Error.mk c "" none).errorMessage = some "") := by
  constructor
  · intro e
    unfold richerrors.Error.errorMessage
    by_cases hmsg : e.ExternalMsg = ""
    · simp [hmsg]
      cases e.Err <;> simp
    · cases herr : e.Err <;> simp [hmsg, herr]
  · intro c
    rfl

/-- Witness for C8: the concrete value with `ExternalMsg = "oops"` and
`Err = nil` makes `Error()` fault. -/
theorem richerrors.error_method_total_iff_err_present_witness :
    (richerrors.Error.mk 0 "oops" none).errorMessage = none := by
  exact (richerrors.error_method_total_iff_err_present.1
    (richerrors.Error.mk 0 "oops" none)).mpr ⟨by decide, rfl⟩

/-- C10: the text encoding of `richerrors.Error` does not round-trip.
`UnmarshalText t` sets both `ExternalMsg` and the wrapped `Err` to `t`, so
`MarshalText` afterwards yields `t ++ ": " ++ t` for every non-empty `t`,
and equals the original text exactly when `t` is empty. -/
theorem richerrors.text_roundtrip_duplicates :
    (∀ (e : richerrors.Error) (t : String), t ≠ "" →
        (e.unmarshalText t).marshalText = some (t ++ ": " ++ t)) ∧
    (∀ e : richerrors.Error, (e.unmarshalText "").marshalText = some "") ∧
    (∀ (e : richerrors.Error) (t : String),
        (e.unmarshalText t).marshalText = some t ↔ t = "") := by
  refine ⟨?_, ?_, ?_⟩
  · intro e t ht
    simp [richerrors.Error.unmarshalText, richerrors.Error.marshalText,
      richerrors.Error.errorMessage, ht]
  · intro e
    rfl
  · intro e t
    constructor
    · intro h
      by_contra ht
      have hdup : (t ++ ": " ++ t : String) = t := by
        have h2 : (e.unmarshalText t).marshalText = some (t ++ ": " ++ t) := by
          simp [richerrors.Error.unmarshalText, richerrors.Error.marshalText,
            richerrors.Error.errorMessage, ht]
        rw [h2] at h
        exact Option.some.inj h
      have hlen := congrArg String.length hdup
      simp only [String.length_append] at hlen
      have h2 : (": " : String).length = 2 := rfl
      rw [h2] at hlen
      omega
    · intro h
      subst h
      rfl

/-- Witness for C10: unmarshalling the text `"a"` and marshalling back
yields `"a: a"`, not `"a"`. -/
theorem richerrors.text_roundtrip_duplicates_witness :
    ((richerrors.Error.mk 0 "" none).unmarshalText "a").marshalText =
      some "a: a" := by
  exact richerrors.text_roundtrip_duplicates.1
    (richerrors.Error.mk 0 "" none) "a" (by decide)

/-- C1 (failing input): on graceful stop, `http.Server.ListenAndServe`
returns the sentinel `http.ErrServerClosed`; the run closure registered
by `RunHandler` wraps every non-nil error, so it reports the graceful
stop as the error `"failed to run server: http: Server closed"` instead
of returning nil. -/
theorem runner.runHandler_graceful_stop_reports_error (env : runner.Env)
    (srv : runner.HTTPServer)
    (h : env.httpListenAndServe srv = some runner.errServerClosed) :
    ((runner.TaskSpec.handlerRun srv).exec env).2 =
      some ⟨"failed to run server: http: Server closed"⟩ ∧
    ((runner.TaskSpec.handlerRun srv).exec env).2 ≠ none := by
  have hexec : (runner.TaskSpec.handlerRun srv).exec env =
      ([runner.Call.httpListenAndServe srv],
        some ⟨"failed to run server: http: Server closed"⟩) := by
    simp only [runner.TaskSpec.exec, h]
    rfl
  rw [hexec]
  exact ⟨rfl, by simp⟩

/-- Witness for C1: a concrete graceful-stop environment in which the
`RunHandler` run closure returns a non-nil error. -/
theorem runner.runHandler_graceful_stop_reports_error_witness :
    ((runner.TaskSpec.handlerRun ⟨":8080", 0⟩).exec
      { runner.envBase with
        httpListenAndServe := fun _ => some runner.errServerClosed }).2 ≠
      none := by
  exact (runner.runHandler_graceful_stop_reports_error
    { runner.envBase with
      httpListenAndServe := fun _ => some runner.errServerClosed }
    ⟨":8080", 0⟩ rfl).2

/-- C2: the watch closure registered by `RunHandler` is bound to the very
coordination context the adapter received and passes that context to
`srv.Shutdown`; by the contract of `http.Server.Shutdown`, shutdown then
completes no later than the context expires, even when in-flight work
never drains. -/
theorem runner.runHandler_shutdown_bounded_by_ctx (ctx : runner.Ctx)
    (handler : Nat) (addr : String) (g : runner.Group) (env : runner.Env) :
    (runner.RunHandler ctx handler addr g).tasks =
      g.tasks ++ [.handlerRun ⟨addr, handler⟩, .handlerWatch ⟨addr, handler⟩ ctx] ∧
    ((runner.TaskSpec.handlerWatch ⟨addr, handler⟩ ctx).exec env).1 =
      [runner.Call.httpShutdown ⟨addr, handler⟩ ctx] ∧
    (∀ (c : Nat) (drain : Option Nat), ∃ t,
        runner.shutdownCompletion (some c) drain = some t ∧ t ≤ c) := by
  refine ⟨?_, ?_, ?_⟩
  · simp [runner.RunHandler, runner.Group.go]
  · cases hs : env.httpShutdown ⟨addr, handler⟩ <;>
      simp [runner.TaskSpec.exec, hs]
  · intro c drain
    cases drain with
    | none => exact ⟨c, rfl, Nat.le_refl c⟩
    | some d => exact ⟨min c d, rfl, Nat.min_le_left c d⟩

/-- C3 counterexample: in the signal-first scenario (shared context
already cancelled before any task starts) every run closure still makes
its blocking serve call — `Listen`, `net.Listen`, `ListenAndServe` are
invoked — refuting the claim that run tasks observe the cancelled context
and return without serving. -/
theorem runner.run_serves_despite_cancelled_ctx_cex :
    runner.envCancelled.ctxDone = true ∧
    runner.Call.fiberListen 0 ":8080" ∈
      ((runner.TaskSpec.fiberRun 0 ":8080").exec runner.envCancelled).1 ∧
    runner.Call.netListen ":9090" ∈
      ((runner.TaskSpec.grpcRun 0 ":9090").exec runner.envCancelled).1 ∧
    runner.Call.httpListenAndServe ⟨":7070", 0⟩ ∈
      ((runner.TaskSpec.handlerRun ⟨":7070", 0⟩).exec runner.envCancelled).1 := by
  decide

/-- C3 amended: run closures never consult the shared context — their
behaviour is identical whether or not the context is already cancelled,
and their first action is always the blocking serve/bind call; prompt
termination in the signal-first scenario relies on the watch closures
instead. -/
theorem runner.run_tasks_serve_unconditionally :
    (∀ (env : runner.Env) (b : Bool) (app : Nat) (addr : String),
        (runner.TaskSpec.fiberRun app addr).exec { env with ctxDone := b } =
          (runner.TaskSpec.fiberRun app addr).exec env ∧
        ((runner.TaskSpec.fiberRun app addr).exec env).1.head? =
          some (.fiberListen app addr)) ∧
    (∀ (env : runner.Env) (b : Bool) (srv : Nat) (addr : String),
        (runner.TaskSpec.grpcRun srv addr).exec { env with ctxDone := b } =
          (runner.TaskSpec.grpcRun srv addr).exec env ∧
        ((runner.TaskSpec.grpcRun srv addr).exec env).1.head? =
          some (.netListen addr)) ∧
    (∀ (env : runner.Env) (b : Bool) (srv : runner.HTTPServer),
        (runner.TaskSpec.handlerRun srv).exec { env with ctxDone := b } =
          (runner.TaskSpec.handlerRun srv).exec env ∧
        ((runner.TaskSpec.handlerRun srv).exec env).1.head? =
          some (.httpListenAndServe srv)) := by
  refine ⟨?_, ?_, ?_⟩
  · intro env b app addr
    cases hf : env.fiberListen app addr <;>
      simp [runner.TaskSpec.exec, hf]
  · intro env b srv addr
    cases hn : env.netListen addr <;>
      cases hs : env.grpcServe srv <;>
        simp [runner.TaskSpec.exec, hn, hs]
  · intro env b srv
    cases hh : env.httpListenAndServe srv <;>
      simp [runner.TaskSpec.exec, hh]

/-- C4: a listener-bind failure in the `RunGRPC` run closure is wrapped
and returned immediately — `Serve` is never called — and, by the error
group contract, any completed execution containing that non-nil result
has its shared context cancelled; the watch closures of every adapter
invoke their server's graceful stop once that cancellation fires. -/
theorem runner.grpc_bind_failure_cancels_group (env : runner.Env)
    (srv : Nat) (addr : String) (e : GoErr)
    (h : env.netListen addr = some e) :
    (runner.TaskSpec.grpcRun srv addr).exec env =
      ([runner.Call.netListen addr],
        some ⟨"failed to listen on gRPC port " ++ addr ++ ": " ++ e.message⟩) ∧
    runner.Call.grpcServe srv ∉
      ((runner.TaskSpec.grpcRun srv addr).exec env).1 ∧
    (∀ runs : List runner.TaskRun,
        (∃ r ∈ runs,
          r.result = ((runner.TaskSpec.grpcRun srv addr).exec env).2) →
        runner.groupCtxCancelled runs = true) ∧
    (∀ (app : Nat) (c : runner.Ctx) (env2 : runner.Env),
        runner.Call.fiberShutdown app ∈
          ((runner.TaskSpec.fiberWatch app c).exec env2).1) ∧
    (∀ (s : Nat) (c : runner.Ctx) (env2 : runner.Env),
        runner.Call.grpcGracefulStop s ∈
          ((runner.TaskSpec.grpcWatch s c).exec env2).1) ∧
    (∀ (s : runner.HTTPServer) (c : runner.Ctx) (env2 : runner.Env),
        runner.Call.httpShutdown s c ∈
          ((runner.TaskSpec.handlerWatch s c).exec env2).1) := by
  have hexec : (runner.TaskSpec.grpcRun srv addr).exec env =
      ([runner.Call.netListen addr],
        some ⟨"failed to listen on gRPC port " ++ addr ++ ": " ++ e.message⟩) := by
    simp only [runner.TaskSpec.exec, h]
  refine ⟨hexec, ?_, ?_, ?_, ?_, ?_⟩
  · rw [hexec]
    simp
  · intro runs hex
    obtain ⟨r, hr, hres⟩ := hex
    rw [hexec] at hres
    unfold runner.groupCtxCancelled
    rw [List.any_eq_true]
    exact ⟨r, hr, by rw [hres]; rfl⟩
  · intro app c env2
    cases hs : env2.fiberShutdown app <;>
      simp [runner.TaskSpec.exec, hs]
  · intro s c env2
    simp [runner.TaskSpec.exec]
  · intro s c env2
    cases hs : env2.httpShutdown s <;>
      simp [runner.TaskSpec.exec, hs]

/-- Witness for C4: a concrete "address in use" bind failure yields the
wrapped bind error as the run closure's result. -/
theorem runner.grpc_bind_failure_cancels_group_witness :
    ((runner.TaskSpec.grpcRun 0 ":9090").exec
      { runner.envBase with
        netListen := fun _ => some ⟨"address in use"⟩ }).2 =
      some ⟨"failed to listen on gRPC port :9090: address in use"⟩ := by
  have h := runner.grpc_bind_failure_cancels_group
    { runner.envBase with netListen := fun _ => some ⟨"address in use"⟩ }
    0 ":9090" ⟨"address in use"⟩ rfl
  rw [h.1]
  rfl

/-- C5: each adapter registers exactly two closures, in order: the run
closure for its server, then the watch closure for the same server
instance bound to the shared context; the watch closures invoke exactly
that instance's graceful-stop operation. -/
theorem runner.adapters_register_run_and_watch_pair (ctx : runner.Ctx)
    (g : runner.Group) (app grpcSrv handler : Nat) (a1 a2 a3 : String)
    (env : runner.Env) :
    (runner.RunFiber ctx app a1 g).tasks =
      g.tasks ++ [.fiberRun app a1, .fiberWatch app ctx] ∧
    (runner.RunGRPC ctx grpcSrv a2 g).tasks =
      g.tasks ++ [.grpcRun grpcSrv a2, .grpcWatch grpcSrv ctx] ∧
    (runner.RunHandler ctx handler a3 g).tasks =
      g.tasks ++ [.handlerRun ⟨a3, handler⟩, .handlerWatch ⟨a3, handler⟩ ctx] ∧
    ((runner.TaskSpec.fiberWatch app ctx).exec env).1 =
      [runner.Call.fiberShutdown app] ∧
    ((runner.TaskSpec.grpcWatch grpcSrv ctx).exec env).1 =
      [runner.Call.grpcGracefulStop grpcSrv] ∧
    ((runner.TaskSpec.handlerWatch ⟨a3, handler⟩ ctx).exec env).1 =
      [runner.Call.httpShutdown ⟨a3, handler⟩ ctx] := by
  refine ⟨?_, ?_, ?_, ?_, ?_, ?_⟩
  · simp [runner.RunFiber, runner.Group.go]
  · simp [runner.RunGRPC, runner.Group.go]
  · simp [runner.RunHandler, runner.Group.go]
  · cases hs : env.fiberShutdown app <;>
      simp [runner.TaskSpec.exec, hs]
  · simp [runner.TaskSpec.exec]
  · cases hs : env.httpShutdown ⟨a3, handler⟩ <;>
      simp [runner.TaskSpec.exec, hs]

/-- C6 counterexample: when the derived context becomes done because the
parent context was cancelled — no signal was received — the
`NewSignalGroup` goroutine still emits its informational log message,
refuting the claim that the message is logged only on receipt of a
signal. -/
theorem runner.signalGroup_logs_on_parent_cancel_cex :
    runner.BridgeEvent.logInfo 0 runner.shutdownLogMsg ∈
      runner.signalGroupMonitor 0 runner.DoneCause.parentCancel ∧
    runner.DoneCause.parentCancel ≠ runner.DoneCause.signal := by
  decide

/-- C6 amended: the `NewSignalGroup` goroutine logs exactly one
informational message via the logger carried in the supplied background
context, it does so for any cause of the derived context's cancellation
(signal or parent cancellation alike), the log strictly follows the
cancellation of the derived context, and releasing the signal
registration (`cancel`) comes last. -/
theorem runner.signalGroup_logs_once_after_done (bg : runner.Ctx)
    (cause : runner.DoneCause) :
    (runner.signalGroupMonitor bg cause).filter runner.isLogEvent =
      [.logInfo bg runner.shutdownLogMsg] ∧
    (runner.signalGroupMonitor bg cause).takeWhile
      (fun e => ! runner.isLogEvent e) = [.ctxDone cause] ∧
    (runner.signalGroupMonitor bg cause).getLast? = some .cancel := by
  exact ⟨rfl, rfl, rfl⟩

/-- Helper: every task's completion position is bounded by the moment
`Wait` returns. -/
theorem runner.doneAt_le_waitReturnsAt (runs : List runner.TaskRun) :
    ∀ r ∈ runs, r.doneAt ≤ runner.waitReturnsAt runs := by
  induction runs with
  | nil => intro r hr; cases hr
  | cons a l ih =>
      intro r hr
      have hcons : runner.waitReturnsAt (a :: l) =
          max a.doneAt (runner.waitReturnsAt l) := rfl
      rcases List.mem_cons.mp hr with h | h
      · rw [h, hcons]; exact Nat.le_max_left _ _
      · rw [hcons]
        exact Nat.le_trans (ih r h) (Nat.le_max_right _ _)

/-- Helper: if every task returns nil, `Wait` returns nil. -/
theorem runner.waitResult_all_none (runs : List runner.TaskRun)
    (h : ∀ r ∈ runs, r.result = none) : runner.waitResult runs = none := by
  induction runs with
  | nil => rfl
  | cons a l ih =>
      have ha : a.result = none := h a (List.mem_cons_self a l)
      have hl : runner.waitResult l = none :=
        ih fun r hr => h r (List.mem_cons_of_mem a hr)
      simp only [runner.waitResult, List.findSome?] at hl ⊢
      rw [ha]
      exact hl

/-- Helper: the first non-nil result in completion order is the value
`Wait` returns. -/
theorem runner.waitResult_first_some (runs : List runner.TaskRun) :
    ∀ (i : Nat) (e : GoErr),
      ((runs.take i).all fun r => r.result.isNone) = true →
      (runs.getD i ⟨0, none⟩).result = some e →
      runner.waitResult runs = some e := by
  induction runs with
  | nil =>
      intro i e _ hget
      simp [List.getD] at hget
  | cons a l ih =>
      intro i e hall hget
      cases i with
      | zero =>
          simp only [List.getD_cons_zero] at hget
          simp only [runner.waitResult, List.findSome?]
          rw [hget]
      | succ j =>
          simp only [List.take_succ_cons, List.all_cons, Bool.and_eq_true] at hall
          have ha : a.result = none := Option.isNone_iff_eq_none.mp hall.1
          simp only [List.getD_cons_succ] at hget
          have := ih j e hall.2 hget
          simp only [runner.waitResult, List.findSome?] at this ⊢
          rw [ha]
          exact this

/-- C7: the group returned by `NewSignalGroup` starts empty, and by the
`errgroup` contract its `Wait` (a) returns nil immediately on zero tasks,
(b) returns only after every task's completion position, (c) returns nil
when every task succeeded, and (d) returns the first non-nil error in
completion order. -/
theorem runner.join_waits_for_all_and_first_error :
    (∀ bg : runner.Ctx, (runner.NewSignalGroup bg).2.tasks = []) ∧
    runner.waitResult [] = none ∧
    runner.waitReturnsAt [] = 0 ∧
    (∀ (runs : List runner.TaskRun), ∀ r ∈ runs,
        r.doneAt ≤ runner.waitReturnsAt runs) ∧
    (∀ runs : List runner.TaskRun, (∀ r ∈ runs, r.result = none) →
        runner.waitResult runs = none) ∧
    (∀ (runs : List runner.TaskRun) (i : Nat) (e : GoErr),
        ((runs.take i).all fun r => r.result.isNone) = true →
        (runs.getD i ⟨0, none⟩).result = some e →
        runner.waitResult runs = some e) := by
  exact ⟨fun _ => rfl, rfl, rfl, runner.doneAt_le_waitReturnsAt,
    runner.waitResult_all_none, runner.waitResult_first_some⟩

/-- Witness for C7: with three tasks finishing in order — the first
succeeding and the next two failing — `Wait` surfaces the earliest
failure. -/
theorem runner.join_waits_for_all_and_first_error_witness :
    runner.waitResult
      [⟨3, none⟩, ⟨5, some ⟨"boom"⟩⟩, ⟨4, some ⟨"later"⟩⟩] =
      some ⟨"boom"⟩ := by
  exact runner.join_waits_for_all_and_first_error.2.2.2.2.2
    [⟨3, none⟩, ⟨5, some ⟨"boom"⟩⟩, ⟨4, some ⟨"later"⟩⟩] 1 ⟨"boom"⟩
    (by decide) (by decide)

/-- C9: once the token claims pass the asset/contract/token-id
validation, the `checkAllPrivileges` middleware with an empty permission
list always calls the next handler, while the `checkOneOfPrivileges`
middleware with an empty permission list always rejects with 401. -/
theorem jwtmiddleware.empty_permissions_all_grants_one_rejects
    (decode : String → Option jwtmiddleware.AssetDID)
    (contract : jwtmiddleware.Address) (tokenID : Option Int)
    (claims : jwtmiddleware.TokenClaims)
    (h : jwtmiddleware.validateTokenIDAndAddress decode contract tokenID
      claims = none) :
    jwtmiddleware.checkAllPrivileges decode contract tokenID
      (some claims) [] = .next ∧
    jwtmiddleware.checkOneOfPrivileges decode contract tokenID
      (some claims) [] = .err 401
        "Unauthorized! Token does not contain any of the required privileges" := by
  constructor
  · simp only [jwtmiddleware.checkAllPrivileges, h]
    rfl
  · simp only [jwtmiddleware.checkOneOfPrivileges, h]
    rfl

/-- Witness for C9: concrete claims that pass validation are granted by
the all-of check with no required permissions. -/
theorem jwtmiddleware.empty_permissions_all_grants_one_rejects_witness :
    jwtmiddleware.checkAllPrivileges (fun _ => some ⟨7, "0xabc"⟩) "0xabc"
      (some 7) (some ⟨"did:erc721", ["read"]⟩) [] = .next := by
  exact (jwtmiddleware.empty_permissions_all_grants_one_rejects
    (fun _ => some ⟨7, "0xabc"⟩) "0xabc" (some 7) ⟨"did:erc721", ["read"]⟩
    (by decide)).1
